import Mathlib

/-!
Shallow embedding of the `codeql-postproc` repository
(`src/codeql_postproc/helpers/codeql.py` and
`src/codeql_postproc/helpers/sarif.py`).

Python values obtained from `yaml.safe_load` / `json.loads` are modelled by
the inductive type `Value` below; the Python `None` is `Value.null`.
File contents are modelled post-parse (the YAML/JSON serialization
libraries are external collaborators).  Archive member names and file
paths are modelled by their `/`-separated component lists, which is the
form every path operation in the source factors through: the metadata
check splits on `/`, the top-level directory is the first component, and
the `endswith("user-properties.yml")` test on a full path is equivalent to
the same test on the final component because the suffix contains no `/`.
-/

/-- A parsed YAML/JSON document value.  Python `None` is `null`; numbers are
modelled by `Int` (no claim involves floating point). -/
inductive Value where
  | null
  | bool (b : Bool)
  | num (n : Int)
  | str (s : String)
  | arr (elems : List Value)
  | obj (fields : List (String × Value))

/-- First-match association-list lookup, modelling Python `dict` access
(parsed documents have unique keys). -/
def dictLookup (kvs : List (String × Value)) (k : String) : Option Value :=
  (kvs.find? (fun kv => kv.1 = k)).map (fun kv => kv.2)

/-- Python `k in d` for a dict. -/
def dictContains (kvs : List (String × Value)) (k : String) : Bool :=
  (dictLookup kvs k).isSome

/-- Python dict assignment `d[k] = v`: updates the value in place (position
preserved) when the key exists, appends otherwise. -/
def dictSet (kvs : List (String × Value)) (k : String) (v : Value) :
    List (String × Value) :=
  if dictContains kvs k then
    kvs.map (fun kv => if kv.1 = k then (kv.1, v) else kv)
  else kvs ++ [(k, v)]

/-- Python `a | b` on dicts: keys of `a` in order (values overridden by `b`
where both contain the key), then the keys of `b` that are new, in order. -/
def dictUnion (a b : List (String × Value)) : List (String × Value) :=
  a.map (fun kv => (kv.1, (dictLookup b kv.1).getD kv.2)) ++
    b.filter (fun kv => ¬ dictContains a kv.1)

/-- Python truthiness of a parsed document value. -/
def truthy : Value → Bool
  | .null => false
  | .bool b => b
  | .num n => n ≠ 0
  | .str s => s ≠ ""
  | .arr xs => !xs.isEmpty
  | .obj kvs => !kvs.isEmpty

/-- Python `isinstance(v, dict)` on a parsed document value. -/
def isDict : Value → Bool
  | .obj _ => true
  | _ => false

/-- Python `v is None` on a parsed document value. -/
def Value.isNull : Value → Bool
  | .null => true
  | _ => false

/-- The exceptions the modelled code can raise. -/
inductive Err where
  | invalidDatabase (msg : String)
  | keyError (msg : String)
  | typeError
  | invalidSarif (msg : String)
  | validationError (msg : String)
deriving DecidableEq

/-! ## Key-path translation (`CodeQLDatabase.__translate_key` + `JsonPointer`)

`__translate_key` turns a dotted key into a JSON-pointer string:
`path = re.sub(r"\[(\d+)\]", r"/\1", key.replace(".", "/"))`, forcing a
leading `/`.  `JsonPointer` then splits the string on `/`, drops the leading
empty part and unescapes `~1` to `/` and then `~0` to `~` in each part.
We operate on the character list of the key. -/

/-- `key.replace(".", "/")`. -/
def replaceDot (cs : List Char) : List Char :=
  cs.map (fun c => if c = '.' then '/' else c)

/-- One pass of Python `str.replace` for a two-character pattern replaced by
a single character (used for the `~1` and `~0` pointer unescapes). -/
def replacePair (a b out : Char) : List Char → List Char
  | [] => []
  | [c] => [c]
  | c :: d :: rest =>
      if c = a ∧ d = b then out :: replacePair a b out rest
      else c :: replacePair a b out (d :: rest)

/-- JSON-pointer part unescaping: `part.replace("~1", "/").replace("~0", "~")`. -/
def unescapePart (cs : List Char) : List Char :=
  replacePair '~' '0' '~' (replacePair '~' '1' '/' cs)

/-- `re.sub(r"\[(\d+)\]", r"/\1", s)`: each `[n]` with a non-empty digit run
becomes `/n`; an unmatched `[` is passed through (the regex engine then
continues from the next character, as the recursive call does).  The fuel is
the length of the remaining input, which each step strictly decreases. -/
def bracketSub : Nat → List Char → List Char
  | 0, cs => cs
  | _, [] => []
  | fuel + 1, '[' :: rest =>
      let digits := rest.takeWhile (fun c => c.isDigit)
      match rest.dropWhile (fun c => c.isDigit), digits with
      | ']' :: tail, _ :: _ => '/' :: (digits ++ bracketSub fuel tail)
      | _, _ => '[' :: bracketSub fuel rest
  | fuel + 1, c :: rest => c :: bracketSub fuel rest

/-- Python `s.split("/")` on a character list. -/
def splitSlash : List Char → List (List Char)
  | [] => [[]]
  | '/' :: rest => [] :: splitSlash rest
  | c :: rest =>
      match splitSlash rest with
      | [] => [[c]]
      | p :: ps => (c :: p) :: ps

/-- `if not path.startswith("/"): path = "/" + path`. -/
def forceSlash (path : List Char) : List Char :=
  if path.head? = some '/' then path else '/' :: path

/-- `CodeQLDatabase.__translate_key` followed by `JsonPointer.__init__`:
the list of (unescaped) pointer parts for a dotted key. -/
def keyParts (key : String) : List String :=
  ((splitSlash (forceSlash (bracketSub key.data.length (replaceDot key.data)))).drop 1).map
    (fun p => String.mk (unescapePart p))

/-- Python `int(p)` on an all-digit string, as used by `jsonpointer` for
sequence indices: defined exactly when `p` is a non-empty digit run (the
behaviour on the claims' inputs; `jsonpointer` additionally accepts the
`-` end-of-list marker and mishandles mixed strings starting with `0`,
neither reachable from the modelled call sites). -/
def parseIndex (p : String) : Option Nat :=
  if p.data ≠ [] ∧ p.data.all (fun c => c.isDigit) then
    some (p.data.foldl (fun acc c => acc * 10 + (c.toNat - '0'.toNat)) 0)
  else none

/-- `jsonpointer` resolution of a part list against a document: mapping
lookup by key, sequence lookup by integer index; a missing key, an
out-of-range or non-numeric index, or a scalar document yields `none`
(which `JsonPointer.get` maps to its `default`). -/
def resolve : Value → List String → Option Value
  | doc, [] => some doc
  | doc, p :: rest =>
      match doc with
      | .obj kvs =>
          match dictLookup kvs p with
          | some v => resolve v rest
          | none => none
      | .arr xs =>
          match parseIndex p with
          | some i =>
              match xs[i]? with
              | some v => resolve v rest
              | none => none
          | none => none
      | _ => none

/-- `self.__translate_key(key).get(doc, default=None)`: pointer resolution
with the Python default `None` for absence. -/
def pointerGetD (doc : Value) (key : String) : Value :=
  (resolve doc (keyParts key)).getD .null

/-! ## CodeQLDatabase (`helpers/codeql.py`) -/

/-- Python `s.endswith(suffix)`. -/
def strEndsWith (s suffix : String) : Bool :=
  suffix.data.isSuffixOf s.data

/-- A zip archive member: its name as `/`-separated components, and its
(parsed) content. -/
structure ZEntry where
  filename : List String
  content : Value

/-- The on-disk state a `CodeQLDatabase` reads and writes, per physical
form: for a directory, the parsed content of `user-properties.yml` (or
`none` when the file is absent); for a zip archive, its member list plus
the cached `self.db_metadata_filename`. -/
inductive Storage where
  | dir (overlay : Option Value)
  | zip (entries : List ZEntry) (db_metadata_filename : List String)

/-- A constructed `CodeQLDatabase`: the cached parsed immutable metadata
and the physical storage. -/
structure CodeQLDatabase where
  database_info : Value
  storage : Storage

/-- What the constructor finds at the database path: a directory (with the
parsed `codeql-database.yml` and `user-properties.yml` contents, each
`none` when the file is absent), a zip archive with its member list, some
other existing file, or nothing. -/
inductive DbPath where
  | dirPath (metadata : Option Value) (overlay : Option Value)
  | zipPath (entries : List ZEntry)
  | otherFile
  | missing

/-- The `is_db_metadata` predicate from `CodeQLDatabase.__init__`:
`zi.filename.split("/")` has exactly two parts and the second is
`codeql-database.yml`. -/
def is_db_metadata (fn : List String) : Bool :=
  fn.length = 2 ∧ fn[1]? = some "codeql-database.yml"

/-- `CodeQLDatabase.__init__`: directory form reads `codeql-database.yml`
directly; archive form requires exactly one member matching
`is_db_metadata` and caches its name; raises `InvalidCodeQLDatabase`
otherwise. -/
def openDatabase : DbPath → Except Err CodeQLDatabase
  | .missing => .error (.invalidDatabase "Database does not exists!")
  | .dirPath metadata overlay =>
      match metadata with
      | some info => .ok ⟨info, .dir overlay⟩
      | none =>
          .error (.invalidDatabase "Invalid database, missing 'codeql-database.yml'!")
  | .zipPath entries =>
      match entries.filter (fun e => is_db_metadata e.filename) with
      | [] => .error (.invalidDatabase "Invalid database, missing 'codeql-database.yml'!")
      | [e] => .ok ⟨e.content, .zip entries e.filename⟩
      | _ => .error (.invalidDatabase "Invalid database, found multiple 'codeql-database.yml'!")
  | .otherFile =>
      .error (.invalidDatabase "Expected a database directory or database zip archive!")

/-- The `is_user_property_file` predicate from `get_property`:
`zi.filename.endswith("user-properties.yml")`.  On the component list this
is the same test on the final component, because the suffix contains no
`/`. -/
def is_user_property_file (fn : List String) : Bool :=
  match fn.getLast? with
  | some last => strEndsWith last "user-properties.yml"
  | none => false

/-- `CodeQLDatabase.get_property`: resolve against the cached metadata with
default `None`; on `None`, load the user properties (directory form: the
overlay file, or `None` when absent; archive form: the unique member whose
name ends with `user-properties.yml`, raising `InvalidCodeQLDatabase` when
there are zero or several) and resolve against them with default `None`. -/
def get_property (db : CodeQLDatabase) (key : String) : Except Err Value :=
  let database_property := pointerGetD db.database_info key
  if ¬ database_property.isNull then .ok database_property
  else
    match db.storage with
    | .dir overlay =>
        let user_properties := overlay.getD .null
        .ok (pointerGetD user_properties key)
    | .zip entries _ =>
        match entries.filter (fun e => is_user_property_file e.filename) with
        | [] => .error (.invalidDatabase "Found no 'user-properties.yml' files!")
        | [e] => .ok (pointerGetD e.content key)
        | _ => .error (.invalidDatabase "Found multiple 'user-properties.yml' files!")

/-- Python `key in self.database_info` for the immutability check of
`set_property`.  The parsed metadata of the claims is a mapping; for a
sequence Python tests membership of the string among the elements, for a
string substring containment, and for any scalar it raises `TypeError`. -/
def valueContainsKey (d : Value) (k : String) : Except Err Bool :=
  match d with
  | .obj kvs => .ok (dictContains kvs k)
  | .arr xs =>
      .ok (xs.any (fun e => match e with | .str s => s = k | _ => false))
  | .str s => .ok (k = "" ∨ (s.splitOn k).length > 1)
  | _ => .error .typeError

/-- The immutability loop of `set_property`: for each keyword key in order,
raise `KeyError` as soon as one is a key of the immutable metadata. -/
def checkImmutable (info : Value) : List String → Except Err Unit
  | [] => .ok ()
  | k :: rest =>
      match valueContainsKey info k with
      | .error e => .error e
      | .ok true => .error (.keyError ("Property with key " ++ k ++ " is immutable!"))
      | .ok false => checkImmutable info rest

/-- The body of `update_or_set_props` once the existing overlay content is
known (`none` when the file does not exist): an existing truthy non-dict
raises `InvalidCodeQLDatabase`; an existing dict is shallow-merged with the
new properties via `existing | props` (new values win); a falsy non-dict
reaches `existing_props | props` and raises `TypeError`; returns the full
document to write back. -/
def mergeProps (existing : Option Value) (kwargs : List (String × Value)) :
    Except Err Value :=
  match existing with
  | none => .ok (.obj kwargs)
  | some content =>
      if truthy content ∧ ¬ isDict content then
        .error (.invalidDatabase "The 'user-properties.yml' is not a YAML dictionary!")
      else
        match content with
        | .obj kvs => .ok (.obj (dictUnion kvs kwargs))
        | _ => .error .typeError

/-- Last-write-wins read of a path in an extracted tree (the filesystem
state after `extractall`). -/
def readFile (tree : List ZEntry) (path : List String) : Option Value :=
  ((tree.filter (fun e => e.filename = path)).getLast?).map (fun e => e.content)

/-- Writing a file at a path in an extracted tree: the path now holds
exactly the new content. -/
def writeFile (tree : List ZEntry) (path : List String) (content : Value) :
    List ZEntry :=
  tree.filter (fun e => e.filename ≠ path) ++ [⟨path, content⟩]

/-- Whether an extracted path lies under the archive's single top-level
directory `top` (the files found by `database.glob("**/*")`, whose arcnames
are their paths relative to the extraction root). -/
def underTop (top : String) (fn : List String) : Bool :=
  fn.head? = some top ∧ fn.length ≥ 2

/-- `CodeQLDatabase.set_property`: run the immutability check over the
keyword keys, then write.  Directory form: `update_or_set_props` on the
overlay file.  Archive form: extract, run `update_or_set_props` inside the
top-level directory (`self.db_metadata_filename.split("/")[0]`), and
rewrite the archive from the files under that directory.  The returned
`Storage` is the on-disk state after the call; an `error` result models an
exception raised before the original directory or archive is touched. -/
def set_property (db : CodeQLDatabase) (kwargs : List (String × Value)) :
    Except Err Storage :=
  match checkImmutable db.database_info (kwargs.map (fun kv => kv.1)) with
  | .error e => .error e
  | .ok () =>
      match db.storage with
      | .dir overlay =>
          match mergeProps overlay kwargs with
          | .error e => .error e
          | .ok props => .ok (.dir (some props))
      | .zip entries mdf =>
          let top := mdf.headD ""
          let upath := [top, "user-properties.yml"]
          match mergeProps (readFile entries upath) kwargs with
          | .error e => .error e
          | .ok props =>
              let tree := writeFile entries upath props
              .ok (.zip (tree.filter (fun e => underTop top e.filename)) mdf)

/-! ## Sarif (`helpers/sarif.py`)

The SARIF 2.1.0 schema is an external resource (`schemas/sarif-schema-2.1.0.json`)
and `jsonschema.validate` an external collaborator; both are modelled by a
parameter `schemaCheck : Value → Option String` returning `none` for a valid
document and `some msg` for a `ValidationError` with message `msg`. -/

/-- The text found at the SARIF path: either it fails `json.loads` with a
`JSONDecodeError`, or it parses to a document. -/
inductive SarifFile where
  | notJson
  | json (v : Value)

/-- `Sarif.__init__`: parse, then `jsonschema.validate` against the fixed
schema; the `try` block converts only `JSONDecodeError` into `InvalidSarif`,
so a schema violation propagates as the raw `ValidationError`. -/
def Sarif.load (schemaCheck : Value → Option String) :
    SarifFile → Except Err Value
  | .notJson => .error (.invalidSarif "Invalid JSON file!")
  | .json v =>
      match schemaCheck v with
      | none => .ok v
      | some msg => .error (.validationError msg)

/-- The provenance record `{repositoryUri, revisionId, branch}`. -/
def vcpRecord (repository_url revision_id branch : String) : Value :=
  .obj [("repositoryUri", .str repository_url),
        ("revisionId", .str revision_id),
        ("branch", .str branch)]

/-- The per-run body of the loop in `add_version_control_provenance`: an
existing non-array `versionControlProvenance` raises `InvalidSarif`; an
absent one is initialized to `[]`; then the record is appended.  A run that
is not a mapping raises `TypeError` (Python fails the membership test, the
subscript or the item assignment on every non-dict run). -/
def addToRun (run record : Value) : Except Err Value :=
  match run with
  | .obj kvs =>
      match dictLookup kvs "versionControlProvenance" with
      | some (.arr xs) =>
          .ok (.obj (dictSet kvs "versionControlProvenance" (.arr (xs ++ [record]))))
      | some _ =>
          .error (.invalidSarif "The 'versionControlProvenance' property is not an array!")
      | none =>
          .ok (.obj (dictSet kvs "versionControlProvenance" (.arr [record])))
  | _ => .error .typeError

/-- The `for run in self.content["runs"]` loop, which mutates the list in
place: the result is the run list as left in memory (mutated prefix, then
the untouched offending run and its successors), together with the raised
exception if any. -/
def addVcpLoop (record : Value) : List Value → List Value × Option Err
  | [] => ([], none)
  | r :: rest =>
      match addToRun r record with
      | .ok r2 =>
          let (rest2, e) := addVcpLoop record rest
          (r2 :: rest2, e)
      | .error e => (r :: rest, some e)

/-- Python `len(v)` on a parsed document value (`TypeError` on scalars). -/
def pyLen : Value → Option Nat
  | .arr xs => some xs.length
  | .obj kvs => some kvs.length
  | .str s => some s.length
  | _ => none

/-- The in-memory document and the file contents on disk for a loaded
`Sarif` object. -/
structure SarifState where
  content : Value
  disk : Value

/-- `Sarif.add_version_control_provenance`: raise `InvalidSarif` when
`runs` is missing or empty; run the append loop over the runs (mutating in
place); re-validate the mutated document, raising `InvalidSarif` with the
schema message embedded; only then `json.dump` the document back to the
path.  The result pairs the post-call state (content and disk) with the
raised exception, if any.  A non-empty non-array `runs` value raises
`TypeError` (from `len` on a scalar, or from processing the first
non-mapping element Python iteration yields on a string or dict). -/
def add_version_control_provenance (schemaCheck : Value → Option String)
    (st : SarifState) (repository_url revision_id branch : String) :
    SarifState × Option Err :=
  match st.content with
  | .obj fields =>
      match dictLookup fields "runs" with
      | none =>
          (st, some (.invalidSarif "Missing or no run objects in 'runs' property!"))
      | some runsVal =>
          match pyLen runsVal with
          | none => (st, some .typeError)
          | some n =>
            if n = 0 then
              (st, some (.invalidSarif "Missing or no run objects in 'runs' property!"))
            else
              match runsVal with
              | .arr runs =>
                  let record := vcpRecord repository_url revision_id branch
                  let (runs2, e) := addVcpLoop record runs
                  let content2 := Value.obj (dictSet fields "runs" (.arr runs2))
                  match e with
                  | some err => ({ st with content := content2 }, some err)
                  | none =>
                      match schemaCheck content2 with
                      | some msg =>
                          ({ st with content := content2 },
                           some (.invalidSarif
                             ("Adding the version control provenance information results in an invalid Sarif file because "
                               ++ msg ++ "!")))
                      | none => (⟨content2, content2⟩, none)
              | _ => (st, some .typeError)
  | _ =>
      (st, some (.invalidSarif "Missing or no run objects in 'runs' property!"))

/-- The `versionControlProvenance` array of a run as observed after the
call, reading the absent case as `[]`. -/
def runVcpList (run : Value) : List Value :=
  match run with
  | .obj kvs =>
      match dictLookup kvs "versionControlProvenance" with
      | some (.arr xs) => xs
      | _ => []
  | _ => []

/-- A run the append loop accepts: a mapping whose existing
`versionControlProvenance`, if present, is an array. -/
def vcpAppendable (run : Value) : Bool :=
  match run with
  | .obj kvs =>
      match dictLookup kvs "versionControlProvenance" with
      | some (.arr _) => true
      | some _ => false
      | none => true
  | _ => false

/-- A run whose existing `versionControlProvenance` is present but not an
array (the `InvalidSarif` case of the append loop). -/
def vcpNotArray (run : Value) : Bool :=
  match run with
  | .obj kvs =>
      match dictLookup kvs "versionControlProvenance" with
      | some (.arr _) => false
      | some _ => true
      | none => false
  | _ => false

/-- Whether a load result failed with the `InvalidSarif` exception. -/
def isInvalidSarifErr : Except Err Value → Bool
  | .error (.invalidSarif _) => true
  | _ => false

/-! ## Helper lemmas -/

example : dictLookup [("a", Value.num 1)] "a" = some (Value.num 1) := rfl
example : dictUnion [("a", Value.num 1)] [("a", Value.num 2), ("b", Value.null)]
    = [("a", Value.num 2), ("b", Value.null)] := rfl

example : keyParts "foo.bar[0].baz" = ["foo", "bar", "0", "baz"] := rfl
example : keyParts "" = [""] := rfl
example :
    pointerGetD (.obj [("a", .obj [("b", .arr [.null, .null,
      .obj [("c", .str "X")]])])]) "a.b[2].c" = .str "X" := rfl
example :
    pointerGetD (.obj [("a", .obj [("b", .arr [.null, .null,
      .obj [("c", .str "X")]])])]) "a.b[2].c.d" = .null := rfl

theorem splitSlash_cons (c : Char) (rest : List Char) :
    splitSlash (c :: rest) =
      if c = '/' then [] :: splitSlash rest
      else
        match splitSlash rest with
        | [] => [[c]]
        | p :: ps => (c :: p) :: ps := by
  by_cases h : c = '/' <;> simp [h, splitSlash]

theorem splitSlash_ne_nil (cs : List Char) : splitSlash cs ≠ [] := by
  induction cs with
  | nil => simp [splitSlash]
  | cons c rest ih =>
      rw [splitSlash_cons]
      split
      · simp
      · split <;> simp

theorem forceSlash_shape (cs : List Char) : ∃ t, forceSlash cs = '/' :: t := by
  unfold forceSlash
  split
  · rename_i h
    cases cs with
    | nil => simp at h
    | cons a t =>
        simp only [List.head?_cons, Option.some.injEq] at h
        exact ⟨t, by rw [h]⟩
  · exact ⟨cs, rfl⟩

theorem keyParts_ne_nil (key : String) : keyParts key ≠ [] := by
  unfold keyParts
  obtain ⟨t, ht⟩ := forceSlash_shape (bracketSub key.data.length (replaceDot key.data))
  rw [ht, splitSlash_cons]
  simp [splitSlash_ne_nil t]

theorem pointerGetD_null (key : String) : pointerGetD .null key = .null := by
  unfold pointerGetD
  match h : keyParts key with
  | [] => exact absurd h (keyParts_ne_nil key)
  | p :: rest => simp [resolve]

example : (Value.str "x") ≠ .null := by simp
example : Value.isNull .null = true := rfl

theorem isNull_false_of_ne {v : Value} (h : v ≠ .null) : v.isNull = false := by
  cases v <;> simp_all [Value.isNull]

theorem get_property_hit (db : CodeQLDatabase) (key : String)
    (h : pointerGetD db.database_info key ≠ .null) :
    get_property db key = .ok (pointerGetD db.database_info key) := by
  unfold get_property
  rw [if_pos]
  simp [isNull_false_of_ne h]

theorem get_property_miss_dir (info : Value) (overlay : Option Value) (key : String)
    (h : pointerGetD info key = .null) :
    get_property ⟨info, .dir overlay⟩ key = .ok (pointerGetD (overlay.getD .null) key) := by
  unfold get_property
  simp [h, Value.isNull]

/-! ## Claims -/

/-- C1: the spec and the CLI callers (which guard `get_property` with
`except KeyError`) require a key that is absent from both the immutable
metadata and the overlay to fail with a key-not-found error; the code
instead returns the Python `None` as an ordinary value.  At the failing
input — a directory database with empty metadata and no overlay file, key
`"x"` — `get_property` returns `None` and raises nothing. -/
theorem c1_get_property_returns_none :
    get_property ⟨.obj [], .dir none⟩ "x" = .ok .null := rfl

/-- C2 counterexample: in a directory database whose immutable metadata
holds `null` at key `a` while the overlay holds `"x"` there, the key `a`
resolves to a value (`null`) in the immutable metadata, yet `get_property`
returns the overlay's `"x"`: the overlay shadows an immutable property. -/
theorem c2_counterexample :
    resolve (.obj [("a", .null)]) (keyParts "a") = some .null
    ∧ get_property ⟨.obj [("a", .null)], .dir (some (.obj [("a", .str "x")]))⟩ "a"
        = .ok (.str "x")
    ∧ Value.str "x" ≠ .null :=
  ⟨rfl, rfl, by simp⟩

/-- C2 (amended): for every database and key that resolves to a
*non-null* value in the immutable metadata, `get_property` returns that
immutable value regardless of the storage form or overlay contents; a
null-valued immutable property, however, can be shadowed by the overlay. -/
theorem c2_immutable_precedence (db : CodeQLDatabase) (key : String) (v : Value)
    (hres : resolve db.database_info (keyParts key) = some v) (hv : v ≠ .null) :
    get_property db key = .ok v := by
  have hp : pointerGetD db.database_info key = v := by
    unfold pointerGetD
    rw [hres]
    rfl
  rw [get_property_hit db key (by rw [hp]; exact hv), hp]

/-- Witness for C2: a database whose metadata holds `"v"` at `a` returns
`"v"` even though the overlay holds `"w"` there. -/
theorem c2_immutable_precedence_witness :
    resolve (Value.obj [("a", .str "v")]) (keyParts "a") = some (.str "v")
    ∧ get_property ⟨.obj [("a", .str "v")], .dir (some (.obj [("a", .str "w")]))⟩ "a"
        = .ok (.str "v") :=
  ⟨rfl, c2_immutable_precedence _ "a" _ rfl (by simp)⟩

/-- C10: a stored `null` is indistinguishable from absence in
`get_property`: when the immutable metadata resolves to `null` at the key,
lookup falls through to the overlay (whose value is returned, so a null
immutable value can be shadowed); a database where the key is entirely
absent from the metadata behaves identically; and an overlay that stores
`null` at the key is reported exactly like an overlay that lacks the key
(both produce `None`). -/
theorem c10_null_indistinguishable (info info2 ovdoc : Value) (key : String)
    (hnull : resolve info (keyParts key) = some .null)
    (habsent : resolve info2 (keyParts key) = none) :
    get_property ⟨info, .dir (some ovdoc)⟩ key = .ok (pointerGetD ovdoc key)
    ∧ get_property ⟨info2, .dir (some ovdoc)⟩ key
        = get_property ⟨info, .dir (some ovdoc)⟩ key
    ∧ ((resolve ovdoc (keyParts key) = some .null ∨ resolve ovdoc (keyParts key) = none) →
        get_property ⟨info, .dir (some ovdoc)⟩ key = .ok .null) := by
  have h1 : pointerGetD info key = .null := by unfold pointerGetD; rw [hnull]; rfl
  have h2 : pointerGetD info2 key = .null := by unfold pointerGetD; rw [habsent]; rfl
  refine ⟨get_property_miss_dir info (some ovdoc) key h1, ?_, ?_⟩
  · rw [get_property_miss_dir info (some ovdoc) key h1,
        get_property_miss_dir info2 (some ovdoc) key h2]
  · intro hov
    rw [get_property_miss_dir info (some ovdoc) key h1]
    rcases hov with hov | hov <;>
      simp [pointerGetD, hov]

/-- Witness for C10: metadata `{a: null}` and overlay `{a: "x"}` produce
`"x"` (the null immutable value is shadowed), identically to metadata `{}`;
and overlays `{a: null}` and `{}` both produce `None`. -/
theorem c10_null_indistinguishable_witness :
    (get_property ⟨.obj [("a", .null)], .dir (some (.obj [("a", .str "x")]))⟩ "a"
        = .ok (pointerGetD (.obj [("a", .str "x")]) "a")
      ∧ get_property ⟨.obj [], .dir (some (.obj [("a", .str "x")]))⟩ "a"
          = get_property ⟨.obj [("a", .null)], .dir (some (.obj [("a", .str "x")]))⟩ "a"
      ∧ ((resolve (.obj [("a", .str "x")]) (keyParts "a") = some .null
            ∨ resolve (.obj [("a", .str "x")]) (keyParts "a") = none) →
          get_property ⟨.obj [("a", .null)], .dir (some (.obj [("a", .str "x")]))⟩ "a"
            = .ok .null))
    ∧ get_property ⟨.obj [("a", .null)], .dir (some (.obj [("a", .null)]))⟩ "a"
        = .ok .null :=
  ⟨c10_null_indistinguishable (.obj [("a", .null)]) (.obj []) (.obj [("a", .str "x")]) "a"
      rfl rfl,
   (c10_null_indistinguishable (.obj [("a", .null)]) (.obj []) (.obj [("a", .null)]) "a"
      rfl rfl).2.2 (Or.inl rfl)⟩

/-- C4 counterexample: a perfectly valid archive database that simply has
no `user-properties.yml` member opens fine, yet `get_property` on any key
absent from the metadata fails with the structural `InvalidCodeQLDatabase`
error — absence of the overlay file *is* reported as a structural database
error, and nothing ever raises a key-not-found error. -/
theorem c4_counterexample :
    openDatabase (.zipPath [⟨["db", "codeql-database.yml"], .obj []⟩])
      = .ok ⟨.obj [], .zip [⟨["db", "codeql-database.yml"], .obj []⟩]
              ["db", "codeql-database.yml"]⟩
    ∧ get_property ⟨.obj [], .zip [⟨["db", "codeql-database.yml"], .obj []⟩]
          ["db", "codeql-database.yml"]⟩ "x"
        = .error (.invalidDatabase "Found no 'user-properties.yml' files!") :=
  ⟨rfl, rfl⟩

/-- C4 (amended): only the directory form treats an absent overlay as an
empty mapping — a key absent from the immutable metadata then yields the
value `None` (not a key-not-found error); in the archive form, absence of
any member ending in `user-properties.yml` makes `get_property` fail with
`InvalidCodeQLDatabase`. -/
theorem c4_overlay_absent (info : Value) (entries : List ZEntry)
    (mdf : List String) (key : String)
    (hmiss : pointerGetD info key = .null)
    (hnone : entries.filter (fun e => is_user_property_file e.filename) = []) :
    get_property ⟨info, .dir none⟩ key = .ok .null
    ∧ get_property ⟨info, .zip entries mdf⟩ key
        = .error (.invalidDatabase "Found no 'user-properties.yml' files!") := by
  constructor
  · rw [get_property_miss_dir info none key hmiss]
    simp [pointerGetD_null]
  · unfold get_property
    simp [hmiss, Value.isNull, hnone]

/-- Witness for C4: empty metadata, key `"x"`; the directory database with
no overlay yields `None`, the archive with only its metadata member fails
structurally. -/
theorem c4_overlay_absent_witness :
    get_property ⟨.obj [], .dir none⟩ "x" = .ok .null
    ∧ get_property ⟨.obj [], .zip [⟨["db", "codeql-database.yml"], .obj [("k", .num 7)]⟩]
          ["db", "codeql-database.yml"]⟩ "x"
        = .error (.invalidDatabase "Found no 'user-properties.yml' files!") :=
  c4_overlay_absent (.obj []) [⟨["db", "codeql-database.yml"], .obj [("k", .num 7)]⟩]
    ["db", "codeql-database.yml"] "x" rfl rfl

theorem checkImmutable_ok_of_not_any (m : List (String × Value)) (ks : List String)
    (h : ks.any (fun k => dictContains m k) = false) :
    checkImmutable (.obj m) ks = .ok () := by
  induction ks with
  | nil => rfl
  | cons k rest ih =>
      simp only [List.any_cons, Bool.or_eq_false_iff] at h
      unfold checkImmutable
      simp [valueContainsKey, h.1, ih h.2]

theorem checkImmutable_err_of_any (m : List (String × Value)) (ks : List String)
    (h : ks.any (fun k => dictContains m k) = true) :
    ∃ msg, checkImmutable (.obj m) ks = .error (.keyError msg) := by
  induction ks with
  | nil => simp at h
  | cons k rest ih =>
      by_cases hk : dictContains m k
      · exact ⟨"Property with key " ++ k ++ " is immutable!", by
          unfold checkImmutable
          simp [valueContainsKey, hk]⟩
      · simp only [List.any_cons, hk, Bool.false_or] at h
        obtain ⟨msg, hmsg⟩ := ih h
        exact ⟨msg, by
          unfold checkImmutable
          simp only [valueContainsKey, hk]
          simpa using hmsg⟩

theorem mergeProps_no_keyError (existing : Option Value)
    (kwargs : List (String × Value)) (msg : String) :
    mergeProps existing kwargs ≠ .error (.keyError msg) := by
  unfold mergeProps
  split
  · simp
  · split
    · simp
    · split <;> simp

/-- C3: whenever `database_info` is a mapping, `set_property` fails with
the immutability `KeyError` exactly when some key of the argument mapping
is an exact top-level key of the immutable metadata; dotted sub-path
arguments do not trigger it.  The check runs before any write, so an
`error` result leaves both the overlay file and the archive untouched. -/
theorem c3_set_property_immutable (db : CodeQLDatabase)
    (m : List (String × Value)) (kwargs : List (String × Value))
    (hinfo : db.database_info = .obj m) :
    (∃ msg, set_property db kwargs = .error (.keyError msg)) ↔
      (kwargs.map (fun kv => kv.1)).any (fun k => dictContains m k) = true := by
  constructor
  · rintro ⟨msg, hmsg⟩
    by_contra hany
    rw [Bool.not_eq_true] at hany
    have hok := checkImmutable_ok_of_not_any m (kwargs.map (fun kv => kv.1)) hany
    rw [← hinfo] at hok
    unfold set_property at hmsg
    rw [hok] at hmsg
    match hst : db.storage with
    | .dir overlay =>
        rw [hst] at hmsg
        dsimp only at hmsg
        match hmp : mergeProps overlay kwargs with
        | .ok props => rw [hmp] at hmsg; simp at hmsg
        | .error e =>
            rw [hmp] at hmsg
            simp only [Except.error.injEq] at hmsg
            exact mergeProps_no_keyError overlay kwargs msg (by rw [hmp, hmsg])
    | .zip entries mdf =>
        rw [hst] at hmsg
        dsimp only at hmsg
        match hmp : mergeProps (readFile entries [mdf.headD "", "user-properties.yml"]) kwargs with
        | .ok props => rw [hmp] at hmsg; simp at hmsg
        | .error e =>
            rw [hmp] at hmsg
            simp only [Except.error.injEq] at hmsg
            exact mergeProps_no_keyError _ kwargs msg (by rw [hmp, hmsg])
  · intro hany
    obtain ⟨msg, hmsg⟩ := checkImmutable_err_of_any m (kwargs.map (fun kv => kv.1)) hany
    rw [← hinfo] at hmsg
    refine ⟨msg, ?_⟩
    unfold set_property
    rw [hmsg]

/-- Witness for C3: writing key `k` when the metadata already has top-level
key `k` raises the `KeyError`, while writing the dotted key `a.b` when the
metadata has `a.b` only as a nested path does not. -/
theorem c3_set_property_immutable_witness :
    (∃ msg, set_property ⟨.obj [("k", .null)], .dir none⟩ [("k", .num 1)]
        = .error (.keyError msg))
    ∧ ¬ (∃ msg, set_property ⟨.obj [("a", .obj [("b", .null)])], .dir none⟩
        [("a.b", .num 1)] = .error (.keyError msg)) :=
  ⟨(c3_set_property_immutable ⟨.obj [("k", .null)], .dir none⟩ [("k", .null)]
      [("k", .num 1)] rfl).mpr rfl,
   fun h => by
    have := (c3_set_property_immutable ⟨.obj [("a", .obj [("b", .null)])], .dir none⟩
      [("a", .obj [("b", .null)])] [("a.b", .num 1)] rfl).mp h
    simp [dictContains, dictLookup] at this⟩

/-- C5 counterexample: the archive `[db/codeql-database.yml, stray.txt]` is
a valid archive database (it opens successfully), but after a successful
`set_property` the rewritten archive has lost `stray.txt`: only the files
under the single top-level directory survive the extract–modify–repack
cycle. -/
theorem c5_counterexample :
    openDatabase (.zipPath [⟨["db", "codeql-database.yml"], .obj []⟩,
        ⟨["stray.txt"], .str "s"⟩])
      = .ok ⟨.obj [], .zip [⟨["db", "codeql-database.yml"], .obj []⟩,
              ⟨["stray.txt"], .str "s"⟩] ["db", "codeql-database.yml"]⟩
    ∧ set_property ⟨.obj [], .zip [⟨["db", "codeql-database.yml"], .obj []⟩,
          ⟨["stray.txt"], .str "s"⟩] ["db", "codeql-database.yml"]⟩ [("k", .num 1)]
        = .ok (.zip [⟨["db", "codeql-database.yml"], .obj []⟩,
            ⟨["db", "user-properties.yml"], .obj [("k", .num 1)]⟩]
            ["db", "codeql-database.yml"])
    ∧ ["stray.txt"] ∈ ([⟨["db", "codeql-database.yml"], .obj []⟩,
        ⟨["stray.txt"], .str "s"⟩] : List ZEntry).map (fun e => e.filename)
    ∧ ["stray.txt"] ∉ ([⟨["db", "codeql-database.yml"], .obj []⟩,
        ⟨["db", "user-properties.yml"], .obj [("k", .num 1)]⟩] : List ZEntry).map
          (fun e => e.filename) :=
  ⟨rfl, rfl, by simp, by simp⟩

theorem dictLookup_cons (kv : String × Value) (t : List (String × Value)) (k : String) :
    dictLookup (kv :: t) k = if kv.1 = k then some kv.2 else dictLookup t k := by
  unfold dictLookup
  by_cases h : kv.1 = k
  · rw [List.find?_cons_of_pos _ (by simp [h])]
    simp [h]
  · rw [List.find?_cons_of_neg _ (by simp [h])]
    simp [h]

theorem dictLookup_map_set (kvs : List (String × Value)) (k : String) (v : Value)
    (h : dictContains kvs k = true) :
    dictLookup (kvs.map (fun kv => if kv.1 = k then (kv.1, v) else kv)) k = some v := by
  induction kvs with
  | nil => simp [dictContains, dictLookup] at h
  | cons kv t ih =>
      by_cases hk : kv.1 = k
      · rw [List.map_cons, if_pos hk, dictLookup_cons]
        simp [hk]
      · rw [List.map_cons, if_neg hk, dictLookup_cons, if_neg hk]
        apply ih
        unfold dictContains at h
        rwa [dictLookup_cons, if_neg hk] at h

theorem dictLookup_append_right (l1 l2 : List (String × Value)) (k : String)
    (h : dictLookup l1 k = none) : dictLookup (l1 ++ l2) k = dictLookup l2 k := by
  induction l1 with
  | nil => simp
  | cons kv t ih =>
      rw [List.cons_append, dictLookup_cons]
      rw [dictLookup_cons] at h
      by_cases hk : kv.1 = k
      · rw [if_pos hk] at h; simp at h
      · rw [if_neg hk] at h
        rw [if_neg hk]
        exact ih h

theorem dictLookup_dictSet_self (kvs : List (String × Value)) (k : String) (v : Value) :
    dictLookup (dictSet kvs k v) k = some v := by
  unfold dictSet
  split
  · rename_i h
    exact dictLookup_map_set kvs k v h
  · rename_i h
    rw [dictLookup_append_right]
    · rw [dictLookup_cons]
      simp
    · unfold dictContains at h
      simpa using h

theorem filter_eq_singleton_of_subpred {α : Type} (p q : α → Bool) (l : List α)
    (x : α) (hq : l.filter q = [x]) (hpq : ∀ a, p a = true → q a = true)
    (hx : p x = true) : l.filter p = [x] := by
  induction l with
  | nil => simp at hq
  | cons a t ih =>
      by_cases hqa : q a = true
      · rw [List.filter_cons_of_pos hqa] at hq
        obtain ⟨rfl, hqt⟩ : a = x ∧ t.filter q = [] := by
          constructor
          · exact (List.cons.injEq _ _ _ _ ▸ hq).1
          · exact (List.cons.injEq _ _ _ _ ▸ hq).2
        rw [List.filter_cons_of_pos hx]
        rw [List.filter_eq_nil_iff] at hqt
        have : t.filter p = [] := by
          rw [List.filter_eq_nil_iff]
          intro b hb hpb
          exact hqt b hb (hpq b hpb)
        rw [this]
      · have hpa : ¬ p a = true := fun h => hqa (hpq a h)
        rw [List.filter_cons_of_neg hqa] at hq
        rw [List.filter_cons_of_neg hpa]
        exact ih hq

/-- C5 (amended): after a successful `set_property` on a valid archive
database, the result is still a valid archive database (it opens
successfully, so it contains exactly one `codeql-database.yml` under a
single top-level directory) and contains the updated `user-properties.yml`
in that directory; and every pre-existing file *under the single top-level
directory* is still present with its path preserved — files outside that
directory (which a valid archive database may contain) are dropped by the
repack. -/
theorem c5_archive_roundtrip (entries entries2 : List ZEntry)
    (db : CodeQLDatabase) (kwargs : List (String × Value)) (mdf : List String)
    (hopen : openDatabase (.zipPath entries) = .ok db)
    (hset : set_property db kwargs = .ok (.zip entries2 mdf)) :
    (∃ db2, openDatabase (.zipPath entries2) = .ok db2)
    ∧ (∃ props,
        mergeProps (readFile entries [mdf.headD "", "user-properties.yml"]) kwargs
          = .ok props
        ∧ ZEntry.mk [mdf.headD "", "user-properties.yml"] props ∈ entries2)
    ∧ (∀ e ∈ entries, underTop (mdf.headD "") e.filename = true →
        e.filename ∈ entries2.map (fun e2 => e2.filename)) := by
  -- Unpack the successful open: a unique metadata candidate `e0`.
  unfold openDatabase at hopen
  dsimp only at hopen
  rcases hcand : entries.filter (fun e => is_db_metadata e.filename)
    with _ | ⟨e0, _ | ⟨e1, rest⟩⟩
  · rw [hcand] at hopen; simp at hopen
  case cons.cons => rw [hcand] at hopen; simp at hopen
  case cons.nil =>
    rw [hcand] at hopen
    simp only [Except.ok.injEq] at hopen
    -- The candidate satisfies `is_db_metadata`, so its name is [a, "codeql-database.yml"].
    have he0 : is_db_metadata e0.filename = true := by
      have : e0 ∈ entries.filter (fun e => is_db_metadata e.filename) := by
        rw [hcand]; exact List.mem_singleton.mpr rfl
      exact (List.mem_filter.mp this).2
    obtain ⟨a, hfn⟩ : ∃ a, e0.filename = [a, "codeql-database.yml"] := by
      unfold is_db_metadata at he0
      simp only [decide_eq_true_eq] at he0
      obtain ⟨hlen, hidx⟩ := he0
      obtain ⟨x, y, hxy⟩ := List.length_eq_two.mp hlen
      rw [hxy] at hidx
      simp only [List.getElem?_cons_succ, List.getElem?_cons_zero,
        Option.some.injEq] at hidx
      exact ⟨x, by rw [hxy, hidx]⟩
    -- Unpack the successful write.
    subst hopen
    unfold set_property at hset
    dsimp only at hset
    rcases hchk : checkImmutable e0.content (kwargs.map (fun kv => kv.1)) with e | u
    · rw [hchk] at hset; simp at hset
    · rw [hchk] at hset
      dsimp only at hset
      rw [hfn] at hset
      dsimp only [List.headD] at hset
      rcases hmp : mergeProps (readFile entries [a, "user-properties.yml"]) kwargs
        with e | props
      · rw [hmp] at hset; simp at hset
      · rw [hmp] at hset
        simp only [Except.ok.injEq, Storage.zip.injEq] at hset
        obtain ⟨hent2, hmdf⟩ := hset
        have hmdfh : mdf.headD "" = a := by rw [← hmdf]; rfl
        have hunder_up : underTop a [a, "user-properties.yml"] = true := by
          simp [underTop]
        have hnew_mem : ZEntry.mk [a, "user-properties.yml"] props ∈ entries2 := by
          rw [← hent2]
          rw [List.mem_filter]
          refine ⟨?_, hunder_up⟩
          unfold writeFile
          exact List.mem_append_right _ (List.mem_singleton.mpr rfl)
        have hd_up : is_db_metadata [a, "user-properties.yml"] = false := by
          simp [is_db_metadata]
        have hunder_md : underTop a [a, "codeql-database.yml"] = true := by
          simp [underTop]
        have hne_md_up : ([a, "codeql-database.yml"] ≠ [a, "user-properties.yml"]) := by
          simp
        refine ⟨?_, ?_, ?_⟩
        · -- The repacked archive still opens: it has the unique metadata member `e0`.
          have hfilter2 : entries2.filter (fun e => is_db_metadata e.filename) = [e0] := by
            rw [← hent2]
            unfold writeFile
            rw [List.filter_append, List.filter_append]
            have hright : (List.filter (fun e => is_db_metadata e.filename)
                (List.filter (fun e => underTop a e.filename)
                  [ZEntry.mk [a, "user-properties.yml"] props])) = [] := by
              simp [hd_up]
            rw [hright, List.append_nil, List.filter_filter, List.filter_filter]
            refine filter_eq_singleton_of_subpred _ _ entries e0 hcand ?_ ?_
            · intro e he
              simp only [Bool.and_eq_true] at he
              exact (he.1.1 : is_db_metadata e.filename = true)
            · simp only [Bool.and_eq_true]
              refine ⟨⟨?_, ?_⟩, ?_⟩
              · exact he0
              · rw [hfn]; exact hunder_md
              · rw [hfn]
                simp only [decide_eq_true_eq]
                exact hne_md_up
          refine ⟨⟨e0.content, .zip entries2 e0.filename⟩, ?_⟩
          unfold openDatabase
          dsimp only
          rw [hfilter2]
        · -- The updated overlay file is present in the top-level directory.
          rw [hmdfh]
          exact ⟨props, hmp, hnew_mem⟩
        · -- Every pre-existing file under the top-level directory survives.
          intro e he hund
          rw [hmdfh] at hund
          by_cases hpath : e.filename = [a, "user-properties.yml"]
          · rw [hpath]
            exact List.mem_map.mpr ⟨ZEntry.mk [a, "user-properties.yml"] props,
              hnew_mem, rfl⟩
          · refine List.mem_map.mpr ⟨e, ?_, rfl⟩
            rw [← hent2, List.mem_filter]
            refine ⟨?_, hund⟩
            unfold writeFile
            refine List.mem_append_left _ ?_
            rw [List.mem_filter]
            exact ⟨he, by simp [hpath]⟩

/-- Witness for C5: the two-member archive `[db/codeql-database.yml,
stray.txt]` opens, its `set_property` succeeds, and the amended round-trip
guarantees hold for the resulting archive. -/
theorem c5_archive_roundtrip_witness :
    (∃ db2, openDatabase (.zipPath [⟨["db", "codeql-database.yml"], .obj []⟩,
        ⟨["db", "user-properties.yml"], .obj [("k", .num 1)]⟩]) = .ok db2)
    ∧ (∃ props,
        mergeProps (readFile [⟨["db", "codeql-database.yml"], .obj []⟩,
            ⟨["stray.txt"], .str "s"⟩] ["db", "user-properties.yml"]) [("k", .num 1)]
          = .ok props
        ∧ ZEntry.mk ["db", "user-properties.yml"] props
            ∈ [⟨["db", "codeql-database.yml"], .obj []⟩,
               ⟨["db", "user-properties.yml"], .obj [("k", .num 1)]⟩])
    ∧ (∀ e ∈ ([⟨["db", "codeql-database.yml"], .obj []⟩,
          ⟨["stray.txt"], .str "s"⟩] : List ZEntry),
        underTop "db" e.filename = true →
        e.filename ∈ ([⟨["db", "codeql-database.yml"], .obj []⟩,
            ⟨["db", "user-properties.yml"], .obj [("k", .num 1)]⟩] : List ZEntry).map
          (fun e2 => e2.filename)) :=
  c5_archive_roundtrip
    [⟨["db", "codeql-database.yml"], .obj []⟩, ⟨["stray.txt"], .str "s"⟩]
    [⟨["db", "codeql-database.yml"], .obj []⟩,
     ⟨["db", "user-properties.yml"], .obj [("k", .num 1)]⟩]
    ⟨.obj [], .zip [⟨["db", "codeql-database.yml"], .obj []⟩,
        ⟨["stray.txt"], .str "s"⟩] ["db", "codeql-database.yml"]⟩
    [("k", .num 1)] ["db", "codeql-database.yml"] rfl rfl

theorem addToRun_of_appendable (run record : Value) (h : vcpAppendable run = true) :
    ∃ run2, addToRun run record = .ok run2
      ∧ runVcpList run2 = runVcpList run ++ [record] := by
  cases run with
  | obj kvs =>
      unfold vcpAppendable at h
      dsimp only at h
      cases hl : dictLookup kvs "versionControlProvenance" with
      | none =>
          refine ⟨.obj (dictSet kvs "versionControlProvenance" (.arr [record])),
            ?_, ?_⟩
          · unfold addToRun
            dsimp only
            rw [hl]
          · unfold runVcpList
            dsimp only
            rw [dictLookup_dictSet_self, hl]
            simp
      | some w =>
          rw [hl] at h
          cases w with
          | arr xs =>
              refine ⟨.obj (dictSet kvs "versionControlProvenance"
                (.arr (xs ++ [record]))), ?_, ?_⟩
              · unfold addToRun
                dsimp only
                rw [hl]
              · unfold runVcpList
                dsimp only
                rw [dictLookup_dictSet_self, hl]
          | null => simp at h
          | bool b => simp at h
          | num n => simp at h
          | str s => simp at h
          | obj f => simp at h
  | null => simp [vcpAppendable] at h
  | bool b => simp [vcpAppendable] at h
  | num n => simp [vcpAppendable] at h
  | str s => simp [vcpAppendable] at h
  | arr xs => simp [vcpAppendable] at h

theorem addVcpLoop_all_ok (record : Value) (runs : List Value)
    (h : ∀ r ∈ runs, vcpAppendable r = true) :
    ∃ runs2, addVcpLoop record runs = (runs2, none)
      ∧ runs2.length = runs.length
      ∧ ∀ i : Nat, (runs2[i]?).map runVcpList
          = (runs[i]?).map (fun r => runVcpList r ++ [record]) := by
  induction runs with
  | nil => exact ⟨[], rfl, rfl, by intro i; simp⟩
  | cons r t ih =>
      obtain ⟨r2, hr2, hvcp⟩ := addToRun_of_appendable r record (h r (by simp))
      obtain ⟨t2, ht2, hlen, hidx⟩ := ih (fun x hx => h x (by simp [hx]))
      refine ⟨r2 :: t2, ?_, by simp [hlen], ?_⟩
      · unfold addVcpLoop
        rw [hr2, ht2]
      · intro i
        cases i with
        | zero => simp [hvcp]
        | succ n => simpa using hidx n

/-- C6: `add_version_control_provenance` fails with `InvalidSarif` when the
`runs` property is missing or is an empty array; otherwise (on runs whose
existing `versionControlProvenance`, if present, is an array) it appends
exactly one identical record to every run's array, initializing absent
arrays, so each run's array grows by exactly one element per call. -/
theorem c6_append_to_every_run (schemaCheck : Value → Option String)
    (st : SarifState) (repository_url revision_id branch : String)
    (fields : List (String × Value)) (hcontent : st.content = .obj fields) :
    (dictLookup fields "runs" = none →
      (add_version_control_provenance schemaCheck st repository_url revision_id branch).2
        = some (.invalidSarif "Missing or no run objects in 'runs' property!"))
    ∧ (dictLookup fields "runs" = some (.arr []) →
      (add_version_control_provenance schemaCheck st repository_url revision_id branch).2
        = some (.invalidSarif "Missing or no run objects in 'runs' property!"))
    ∧ (∀ runs, dictLookup fields "runs" = some (.arr runs) → runs ≠ [] →
        (∀ r ∈ runs, vcpAppendable r = true) →
        ∃ runs2,
          (add_version_control_provenance schemaCheck st repository_url revision_id branch).1.content
            = .obj (dictSet fields "runs" (.arr runs2))
          ∧ runs2.length = runs.length
          ∧ ∀ i : Nat, (runs2[i]?).map runVcpList
              = (runs[i]?).map
                  (fun r => runVcpList r
                    ++ [vcpRecord repository_url revision_id branch])) := by
  refine ⟨?_, ?_, ?_⟩
  · intro hruns
    unfold add_version_control_provenance
    rw [hcontent]
    dsimp only
    rw [hruns]
  · intro hruns
    unfold add_version_control_provenance
    rw [hcontent]
    dsimp only
    rw [hruns]
    rfl
  · intro runs hruns hne happ
    obtain ⟨runs2, hloop, hlen, hidx⟩ :=
      addVcpLoop_all_ok (vcpRecord repository_url revision_id branch) runs happ
    refine ⟨runs2, ?_, hlen, hidx⟩
    unfold add_version_control_provenance
    rw [hcontent]
    dsimp only
    rw [hruns]
    dsimp only [pyLen]
    rw [if_neg (by simpa using hne)]
    rw [hloop]
    dsimp only
    cases schemaCheck (Value.obj (dictSet fields "runs" (.arr runs2))) <;> rfl

/-- Witness for C6: a document with 2 runs and no prior provenance; after
one call both runs have a 1-element `versionControlProvenance` array with
identical content, after a second call both have 2-element arrays. -/
theorem c6_append_to_every_run_witness :
    (∃ runs2,
      (add_version_control_provenance (fun _ => none)
          ⟨.obj [("runs", .arr [.obj [], .obj []])], .null⟩ "u" "r" "b").1.content
        = .obj (dictSet [("runs", .arr [.obj [], .obj []])] "runs" (.arr runs2))
      ∧ runs2.length = ([Value.obj [], Value.obj []]).length
      ∧ ∀ i : Nat, (runs2[i]?).map runVcpList
          = (([Value.obj [], Value.obj []])[i]?).map
              (fun r => runVcpList r ++ [vcpRecord "u" "r" "b"]))
    ∧ (add_version_control_provenance (fun _ => none)
          ⟨.obj [("runs", .arr [.obj [], .obj []])], .null⟩ "u" "r" "b").1.content
        = .obj [("runs", .arr
            [.obj [("versionControlProvenance", .arr [vcpRecord "u" "r" "b"])],
             .obj [("versionControlProvenance", .arr [vcpRecord "u" "r" "b"])]])]
    ∧ (add_version_control_provenance (fun _ => none)
        (add_version_control_provenance (fun _ => none)
          ⟨.obj [("runs", .arr [.obj [], .obj []])], .null⟩ "u" "r" "b").1
        "u" "r" "b").1.content
        = .obj [("runs", .arr
            [.obj [("versionControlProvenance",
                .arr [vcpRecord "u" "r" "b", vcpRecord "u" "r" "b"])],
             .obj [("versionControlProvenance",
                .arr [vcpRecord "u" "r" "b", vcpRecord "u" "r" "b"])]])] :=
  ⟨(c6_append_to_every_run (fun _ => none)
      ⟨.obj [("runs", .arr [.obj [], .obj []])], .null⟩ "u" "r" "b"
      [("runs", .arr [.obj [], .obj []])] rfl).2.2
      [.obj [], .obj []] rfl (by simp) (by intro r hr; fin_cases hr <;> rfl),
   rfl, rfl⟩

/-- C7 counterexample: a file that parses as JSON but violates the schema
is rejected at load time, but the raised error is the raw schema
`ValidationError` — the `try` block of `Sarif.__init__` catches only
`JSONDecodeError` — so the rejection does not carry the `InvalidSarif`
error kind the claim requires. -/
theorem c7_counterexample :
    Sarif.load (fun _ => some "schema violation") (.json (.obj []))
      = .error (.validationError "schema violation")
    ∧ isInvalidSarifErr
        (Sarif.load (fun _ => some "schema violation") (.json (.obj []))) = false :=
  ⟨rfl, rfl⟩

/-- C7 (amended): loading a file that is not valid JSON fails with
`InvalidSarif`; loading a file that parses as JSON but violates the SARIF
2.1.0 schema is also rejected at load time, but with the underlying schema
`ValidationError` (carrying the schema message), not with `InvalidSarif`. -/
theorem c7_load_rejections (schemaCheck : Value → Option String) (v : Value)
    (msg : String) (hviol : schemaCheck v = some msg) :
    Sarif.load schemaCheck .notJson = .error (.invalidSarif "Invalid JSON file!")
    ∧ Sarif.load schemaCheck (.json v) = .error (.validationError msg) := by
  constructor
  · rfl
  · unfold Sarif.load
    dsimp only
    rw [hviol]

/-- Witness for C7: a schema check that rejects the empty object with
message `"bad"`. -/
theorem c7_load_rejections_witness :
    Sarif.load (fun _ => some "bad") .notJson
      = .error (.invalidSarif "Invalid JSON file!")
    ∧ Sarif.load (fun _ => some "bad") (.json (.obj []))
      = .error (.validationError "bad") :=
  c7_load_rejections (fun _ => some "bad") (.obj []) "bad" rfl

theorem avcp_disk_or_success (schemaCheck : Value → Option String)
    (st : SarifState) (repository_url revision_id branch : String) :
    (add_version_control_provenance schemaCheck st repository_url revision_id branch).1.disk
      = st.disk
    ∨ (add_version_control_provenance schemaCheck st repository_url revision_id branch).2
      = none := by
  unfold add_version_control_provenance
  rcases st with ⟨content, disk⟩
  cases content <;> try exact Or.inl rfl
  case obj fields =>
    dsimp only
    cases hl : dictLookup fields "runs"
    · exact Or.inl rfl
    case some v =>
      dsimp only
      cases hp : pyLen v
      · exact Or.inl rfl
      case some n =>
        dsimp only
        by_cases hn : n = 0
        · rw [if_pos hn]
          exact Or.inl rfl
        · rw [if_neg hn]
          cases v <;> try exact Or.inl rfl
          rename_i runs
          dsimp only
          cases he : (addVcpLoop (vcpRecord repository_url revision_id branch) runs).2
          · dsimp only
            cases hs : schemaCheck (Value.obj (dictSet fields "runs"
                (.arr (addVcpLoop (vcpRecord repository_url revision_id branch) runs).1)))
            · exact Or.inr rfl
            · exact Or.inl rfl
          · exact Or.inl rfl

/-- C8: after the append loop the whole document is re-validated; on a
schema violation the call fails with `InvalidSarif` embedding the schema
message and the file on disk is untouched (indeed, every failing call
leaves the disk untouched — the `json.dump` only runs after successful
validation); only on successful validation is the document written back. -/
theorem c8_validate_before_write (schemaCheck : Value → Option String)
    (st : SarifState) (repository_url revision_id branch : String) :
    ((add_version_control_provenance schemaCheck st repository_url revision_id branch).2.isSome
        = true →
      (add_version_control_provenance schemaCheck st repository_url revision_id branch).1.disk
        = st.disk)
    ∧ (∀ fields runs, st.content = .obj fields →
        dictLookup fields "runs" = some (.arr runs) → runs ≠ [] →
        (∀ r ∈ runs, vcpAppendable r = true) →
        ∃ content2,
          (add_version_control_provenance schemaCheck st repository_url revision_id branch).1.content
            = content2
          ∧ (∀ msg, schemaCheck content2 = some msg →
              add_version_control_provenance schemaCheck st repository_url revision_id branch
                = (⟨content2, st.disk⟩,
                   some (.invalidSarif
                     ("Adding the version control provenance information results in an invalid Sarif file because "
                       ++ msg ++ "!"))))
          ∧ (schemaCheck content2 = none →
              add_version_control_provenance schemaCheck st repository_url revision_id branch
                = (⟨content2, content2⟩, none))) := by
  constructor
  · intro hsome
    rcases avcp_disk_or_success schemaCheck st repository_url revision_id branch
      with h | h
    · exact h
    · rw [h] at hsome
      simp at hsome
  · intro fields runs hcontent hruns hne happ
    obtain ⟨runs2, hloop, hlen, hidx⟩ :=
      addVcpLoop_all_ok (vcpRecord repository_url revision_id branch) runs happ
    have hred : add_version_control_provenance schemaCheck st repository_url revision_id branch
        = match schemaCheck (.obj (dictSet fields "runs" (.arr runs2))) with
          | some msg =>
              (⟨.obj (dictSet fields "runs" (.arr runs2)), st.disk⟩,
               some (.invalidSarif
                 ("Adding the version control provenance information results in an invalid Sarif file because "
                   ++ msg ++ "!")))
          | none =>
              (⟨.obj (dictSet fields "runs" (.arr runs2)),
                .obj (dictSet fields "runs" (.arr runs2))⟩, none) := by
      unfold add_version_control_provenance
      rw [hcontent]
      dsimp only
      rw [hruns]
      dsimp only [pyLen]
      rw [if_neg (by simpa using hne)]
      rw [hloop]
    refine ⟨.obj (dictSet fields "runs" (.arr runs2)), ?_, ?_, ?_⟩
    · rw [hred]
      cases schemaCheck (Value.obj (dictSet fields "runs" (.arr runs2))) <;> rfl
    · intro msg hmsg
      rw [hred, hmsg]
    · intro hok
      rw [hred, hok]

/-- Witness for C8: with a schema check that rejects everything, the call
fails and leaves the original disk contents untouched; with one that
accepts everything, the mutated document is written back. -/
theorem c8_validate_before_write_witness :
    (add_version_control_provenance (fun _ => some "bad")
        ⟨.obj [("runs", .arr [.obj []])], .str "orig"⟩ "u" "r" "b").2.isSome = true
    ∧ (add_version_control_provenance (fun _ => some "bad")
        ⟨.obj [("runs", .arr [.obj []])], .str "orig"⟩ "u" "r" "b").1.disk
        = .str "orig"
    ∧ (add_version_control_provenance (fun _ => none)
        ⟨.obj [("runs", .arr [.obj []])], .str "orig"⟩ "u" "r" "b").1.disk
        = (add_version_control_provenance (fun _ => none)
            ⟨.obj [("runs", .arr [.obj []])], .str "orig"⟩ "u" "r" "b").1.content :=
  ⟨rfl,
   (c8_validate_before_write (fun _ => some "bad")
      ⟨.obj [("runs", .arr [.obj []])], .str "orig"⟩ "u" "r" "b").1 rfl,
   rfl⟩

theorem addToRun_error_of_notArray (run record : Value) (h : vcpNotArray run = true) :
    addToRun run record
      = .error (.invalidSarif "The 'versionControlProvenance' property is not an array!") := by
  cases run with
  | obj kvs =>
      unfold vcpNotArray at h
      dsimp only at h
      cases hl : dictLookup kvs "versionControlProvenance" with
      | none => rw [hl] at h; simp at h
      | some w =>
          rw [hl] at h
          unfold addToRun
          dsimp only
          rw [hl]
          cases w with
          | arr xs => simp at h
          | null => rfl
          | bool b => rfl
          | num n => rfl
          | str s2 => rfl
          | obj f => rfl
  | null => simp [vcpNotArray] at h
  | bool b => simp [vcpNotArray] at h
  | num n => simp [vcpNotArray] at h
  | str s2 => simp [vcpNotArray] at h
  | arr xs => simp [vcpNotArray] at h

theorem addVcpLoop_error (record : Value) (pre : List Value) (bad : Value)
    (post : List Value) (hpre : ∀ r ∈ pre, vcpAppendable r = true)
    (hbad : vcpNotArray bad = true) :
    ∃ pre2, pre2.length = pre.length
      ∧ (∀ i : Nat, (pre2[i]?).map runVcpList
          = (pre[i]?).map (fun r => runVcpList r ++ [record]))
      ∧ addVcpLoop record (pre ++ bad :: post)
          = (pre2 ++ bad :: post,
             some (.invalidSarif "The 'versionControlProvenance' property is not an array!")) := by
  induction pre with
  | nil =>
      refine ⟨[], rfl, by intro i; simp, ?_⟩
      simp only [List.nil_append]
      unfold addVcpLoop
      rw [addToRun_error_of_notArray bad record hbad]
  | cons r t ih =>
      obtain ⟨r2, hr2, hvcp⟩ := addToRun_of_appendable r record (hpre r (by simp))
      obtain ⟨t2, hlen, hidx, hloop⟩ := ih (fun x hx => hpre x (by simp [hx]))
      refine ⟨r2 :: t2, by simp [hlen], ?_, ?_⟩
      · intro i
        cases i with
        | zero => simp [hvcp]
        | succ n => simpa using hidx n
      · rw [List.cons_append]
        unfold addVcpLoop
        rw [hr2, hloop]
        simp

/-- C9: when the append loop hits a run whose existing
`versionControlProvenance` is not an array, the call fails with
`InvalidSarif` but the in-memory document is not rolled back: every run
before the offending one has already received the appended record, the
offending run and its successors are untouched, and the disk is not
written. -/
theorem c9_partial_mutation_on_error (schemaCheck : Value → Option String)
    (st : SarifState) (repository_url revision_id branch : String)
    (fields : List (String × Value)) (pre : List Value) (bad : Value)
    (post : List Value)
    (hcontent : st.content = .obj fields)
    (hruns : dictLookup fields "runs" = some (.arr (pre ++ bad :: post)))
    (hpre : ∀ r ∈ pre, vcpAppendable r = true)
    (hbad : vcpNotArray bad = true) :
    ∃ pre2, pre2.length = pre.length
      ∧ (∀ i : Nat, (pre2[i]?).map runVcpList
          = (pre[i]?).map (fun r => runVcpList r
              ++ [vcpRecord repository_url revision_id branch]))
      ∧ add_version_control_provenance schemaCheck st repository_url revision_id branch
          = (⟨.obj (dictSet fields "runs" (.arr (pre2 ++ bad :: post))), st.disk⟩,
             some (.invalidSarif "The 'versionControlProvenance' property is not an array!")) := by
  obtain ⟨pre2, hlen, hidx, hloop⟩ :=
    addVcpLoop_error (vcpRecord repository_url revision_id branch) pre bad post hpre hbad
  refine ⟨pre2, hlen, hidx, ?_⟩
  unfold add_version_control_provenance
  rw [hcontent]
  dsimp only
  rw [hruns]
  dsimp only [pyLen]
  rw [if_neg (by simp)]
  rw [hloop]

/-- Witness for C9: runs `[{}, {versionControlProvenance: "no"}, {}]`; the
call fails, the first run has been mutated in memory, the offending run
and its successor have not, and the disk still holds the original text. -/
theorem c9_partial_mutation_on_error_witness :
    ∃ pre2, pre2.length = ([Value.obj []]).length
      ∧ (∀ i : Nat, (pre2[i]?).map runVcpList
          = (([Value.obj []])[i]?).map
              (fun r => runVcpList r ++ [vcpRecord "u" "r" "b"]))
      ∧ add_version_control_provenance (fun _ => none)
          ⟨.obj [("runs", .arr ([.obj []] ++ (.obj [("versionControlProvenance", .str "no")]) :: [.obj []]))], .str "orig"⟩
          "u" "r" "b"
          = (⟨.obj (dictSet [("runs", .arr ([.obj []] ++ (.obj [("versionControlProvenance", .str "no")]) :: [.obj []]))] "runs"
                (.arr (pre2 ++ (.obj [("versionControlProvenance", .str "no")]) :: [.obj []]))), .str "orig"⟩,
             some (.invalidSarif "The 'versionControlProvenance' property is not an array!")) :=
  by
  exact c9_partial_mutation_on_error (fun _ => none)
    ⟨Value.obj [("runs", Value.arr ([Value.obj []]
        ++ (Value.obj [("versionControlProvenance", Value.str "no")]) :: [Value.obj []]))],
      Value.str "orig"⟩
    "u" "r" "b"
    [("runs", Value.arr ([Value.obj []]
        ++ (Value.obj [("versionControlProvenance", Value.str "no")]) :: [Value.obj []]))]
    [Value.obj []] (Value.obj [("versionControlProvenance", Value.str "no")]) [Value.obj []]
    rfl rfl (by intro r hr; fin_cases hr <;> rfl) rfl
